import Mathlib

/-!
Verification development for the CipherChat repository.

The repository has three source files:
* `gmpc-backend/index.js` — an Express backend: scrypt + AES-256-GCM envelope
  encryption of escrowed private keys, bcrypt password verification, and SQLite
  storage of users and per-recipient ciphertext records;
* two frontend variants of `App.jsx` (here called variant 0 and variant 1):
  both use `nacl.box` authenticated public-key encryption with per-recipient
  fan-out; variant 0 keeps the keypair purely client-side, variant 1 escrows the
  private key through the backend.

The embedding below models the repository's own code faithfully.  External
cryptographic library primitives (`crypto.scryptSync`, AES-256-GCM,
`bcrypt`, `nacl.box`) are not code of this repository; they are modelled as
ideal primitives: the KDF is an injective function of password and salt, the
GCM tag is an injective MAC of key, IV and ciphertext, the GCM keystream is an
arbitrary function XORed onto the plaintext, and bcrypt hashing is an ideal
one-way record of the password.  Reversible wire encodings (JSON, base64,
UTF-8) are elided: byte strings are `List Nat` and envelopes are records of
their four JSON fields.
-/

namespace CipherChat

/-- Byte strings (Node `Buffer`s / `Uint8Array`s) are lists of naturals. -/
abbrev Bytes := List Nat

/-- Character codes of a string; the embedding's stand-in for UTF-8 encoding. -/
def strCodes (s : String) : Bytes := s.toList.map Char.toNat

theorem char_toNat_injective : Function.Injective Char.toNat :=
  fun _ _ h => Char.eq_of_val_eq (UInt32.toNat.inj h)

theorem strCodes_injective : Function.Injective strCodes := by
  intro s t h
  exact String.toList_inj.mp (List.map_injective_iff.mpr char_toNat_injective h)

/-- Injective encoding of a byte string into a single natural number. -/
def encBytes (bs : Bytes) : Nat := Encodable.encode bs

theorem encBytes_injective : Function.Injective encBytes :=
  fun _ _ h => Encodable.encode_injective h

/-!
EnvelopeCipher (gmpc-backend/index.js, lines 46-72).

`crypto.scryptSync(password, salt, 32)` is modelled as an ideal KDF: the
derived key is an opaque value determined by (and only by) the password and
the salt.  AES-256-GCM is modelled as XOR with a key/IV-determined keystream
plus an ideal (collision-free) authentication tag over key, IV and
ciphertext; `decipher.final()` throwing on tag mismatch is modelled by the
decryption returning `none`.
-/

/-- Derived symmetric key of the ideal scrypt KDF model. -/
structure ScryptKey where
  password : String
  salt : Bytes
deriving DecidableEq

/-- Model of `crypto.scryptSync(password, salt, 32)`. -/
def scryptSync (password : String) (salt : Bytes) : ScryptKey :=
  { password := password, salt := salt }

/-- Keystream byte `i` of the ideal AES-256-GCM model under a key and IV. -/
def ksByte (k : ScryptKey) (iv : Bytes) (i : Nat) : Nat :=
  (encBytes (strCodes k.password) + encBytes k.salt + encBytes iv + i) % 256

/-- XOR a byte string against the keystream starting at stream position `i`. -/
def xorStream (k : ScryptKey) (iv : Bytes) : Nat → Bytes → Bytes
  | _, [] => []
  | i, b :: bs => (b ^^^ ksByte k iv i) :: xorStream k iv (i + 1) bs

/-- Ideal GCM authentication tag: an injective MAC of key, IV and ciphertext. -/
def gcmTag (k : ScryptKey) (iv ct : Bytes) : Nat :=
  Nat.pair (Nat.pair (encBytes (strCodes k.password)) (encBytes k.salt))
    (Nat.pair (encBytes iv) (encBytes ct))

theorem gcmTag_injective {k k' : ScryptKey} {iv iv' ct ct' : Bytes}
    (h : gcmTag k iv ct = gcmTag k' iv' ct') : k = k' ∧ iv = iv' ∧ ct = ct' := by
  unfold gcmTag at h
  obtain ⟨h1, h2⟩ := Nat.pair_eq_pair.mp h
  obtain ⟨hpw, hsalt⟩ := Nat.pair_eq_pair.mp h1
  obtain ⟨hiv, hct⟩ := Nat.pair_eq_pair.mp h2
  refine ⟨?_, encBytes_injective hiv, encBytes_injective hct⟩
  cases k; cases k'
  simp only [ScryptKey.mk.injEq]
  exact ⟨strCodes_injective (encBytes_injective hpw), encBytes_injective hsalt⟩

/-- PasswordEnvelope: the JSON object `{data, iv, salt, tag}` returned by
`encryptPrivateKey` (JSON/base64 serialisation, a reversible encoding, is
elided). -/
structure Envelope where
  data : Bytes
  iv : Bytes
  salt : Bytes
  tag : Nat
deriving DecidableEq

/-- Model of `encryptPrivateKey(privateKey, password)` (index.js lines 46-59).
The two `crypto.randomBytes(16)` draws are passed in explicitly as `salt` and
`iv`. -/
def encryptPrivateKey (privateKey : Bytes) (password : String) (salt iv : Bytes) :
    Envelope :=
  let key := scryptSync password salt
  let encrypted := xorStream key iv 0 privateKey
  { data := encrypted, iv := iv, salt := salt, tag := gcmTag key iv encrypted }

/-- Model of `decryptPrivateKey(encString, password)` (index.js lines 61-72).
GCM verifies the tag over the ciphertext under the re-derived key;
`decipher.final()` throwing on mismatch is the `none` branch, so no plaintext
bytes are ever returned on an authentication failure. -/
def decryptPrivateKey (env : Envelope) (password : String) : Option Bytes :=
  let key := scryptSync password env.salt
  if gcmTag key env.iv env.data = env.tag then
    some (xorStream key env.iv 0 env.data)
  else none

theorem xorStream_involutive (k : ScryptKey) (iv : Bytes) :
    ∀ (i : Nat) (bs : Bytes), xorStream k iv i (xorStream k iv i bs) = bs := by
  intro i bs
  induction bs generalizing i with
  | nil => rfl
  | cons b bs ih => simp [xorStream, Nat.xor_cancel_right, ih]

theorem decryptPrivateKey_encryptPrivateKey (priv : Bytes) (pw : String)
    (salt iv : Bytes) :
    decryptPrivateKey (encryptPrivateKey priv pw salt iv) pw = some priv := by
  simp [decryptPrivateKey, encryptPrivateKey, xorStream_involutive]

/-- C1 (confirmed): for every private key, password and randomness draw,
`decryptPrivateKey(encryptPrivateKey(priv, pw), pw)` returns `priv` exactly. -/
theorem envelope_roundtrip (priv : Bytes) (pw : String) (salt iv : Bytes) :
    decryptPrivateKey (encryptPrivateKey priv pw salt iv) pw = some priv :=
  decryptPrivateKey_encryptPrivateKey priv pw salt iv

/-- Flip bit `i` of a natural number. -/
def flipBit (n i : Nat) : Nat := n ^^^ 2 ^ i

/-- Flip bit `i` of byte `j` of a byte string. -/
def flipByteBit (bs : Bytes) (j i : Nat) : Bytes := bs.set j (flipBit (bs.getD j 0) i)

theorem flipBit_ne (n i : Nat) : flipBit n i ≠ n := by
  intro h
  have h2 : n ^^^ (n ^^^ 2 ^ i) = n ^^^ n := congrArg (n ^^^ ·) h
  rw [Nat.xor_cancel_left, Nat.xor_self] at h2
  exact Nat.pos_iff_ne_zero.mp (Nat.pos_pow_of_pos i (by omega)) h2

theorem set_flip_ne (l : Bytes) (j i : Nat) (h : j < l.length) :
    flipByteBit l j i ≠ l := by
  intro he
  have h1 : (l.set j (flipBit (l.getD j 0) i))[j]? = some (flipBit (l.getD j 0) i) :=
    List.getElem?_set_self h
  rw [show l.set j (flipBit (l.getD j 0) i) = l from he] at h1
  have h2 : l[j]? = some (l.getD j 0) := by
    rw [List.getElem?_eq_getElem h, List.getD_eq_getElem?_getD, List.getElem?_eq_getElem h]
    rfl
  rw [h1] at h2
  exact flipBit_ne (l.getD j 0) i (Option.some.inj h2)

theorem xorStream_length (k : ScryptKey) (iv : Bytes) :
    ∀ (i : Nat) (bs : Bytes), (xorStream k iv i bs).length = bs.length := by
  intro i bs
  induction bs generalizing i with
  | nil => rfl
  | cons b bs ih => simp [xorStream, ih]

/-- C2 (confirmed): unwrapping an envelope with a wrong password fails and
returns no plaintext bytes, and flipping any single bit of the envelope's
ciphertext or tag makes unwrap fail rather than succeed with garbled output. -/
theorem envelope_authentication (priv : Bytes) (pw pw' : String) (salt iv : Bytes)
    (j i : Nat) (hpw : pw' ≠ pw)
    (hj : j < (encryptPrivateKey priv pw salt iv).data.length) :
    decryptPrivateKey (encryptPrivateKey priv pw salt iv) pw' = none ∧
    decryptPrivateKey
      { encryptPrivateKey priv pw salt iv with
        data := flipByteBit (encryptPrivateKey priv pw salt iv).data j i } pw = none ∧
    decryptPrivateKey
      { encryptPrivateKey priv pw salt iv with
        tag := flipBit (encryptPrivateKey priv pw salt iv).tag i } pw = none := by
  refine ⟨?_, ?_, ?_⟩
  · simp only [decryptPrivateKey, encryptPrivateKey]
    rw [if_neg]
    intro h
    exact hpw (congrArg ScryptKey.password (gcmTag_injective h).1)
  · simp only [decryptPrivateKey, encryptPrivateKey] at hj ⊢
    rw [if_neg]
    intro h
    exact set_flip_ne _ j i hj (gcmTag_injective h).2.2
  · simp only [decryptPrivateKey, encryptPrivateKey]
    rw [if_neg]
    intro h
    exact flipBit_ne _ i h.symm

/-- Witness for C2 at a concrete private key, password pair and bit position. -/
theorem envelope_authentication_witness :
    decryptPrivateKey (encryptPrivateKey [1, 2] "a" [3] [4]) "b" = none ∧
    decryptPrivateKey
      { encryptPrivateKey [1, 2] "a" [3] [4] with
        data := flipByteBit (encryptPrivateKey [1, 2] "a" [3] [4]).data 0 0 } "a" = none ∧
    decryptPrivateKey
      { encryptPrivateKey [1, 2] "a" [3] [4] with
        tag := flipBit (encryptPrivateKey [1, 2] "a" [3] [4]).tag 0 } "a" = none :=
  envelope_authentication [1, 2] "a" "b" [3] [4] 0 0 (by decide)
    (by simp [encryptPrivateKey, xorStream_length])

/-!
CredentialVerifier and the backend account routes
(gmpc-backend/index.js, lines 86-122).

`bcrypt.hash` / `bcrypt.compare` are library primitives, modelled ideally: a
hash is an opaque record determined by the password, and `compare` succeeds
exactly on the hashed password.  JavaScript truthiness checks (`!field`) on
request-body fields are modelled on `Option`s: an absent field is `none` and
the empty string / empty byte string is falsy.
-/

/-- Ideal model of a bcrypt password hash. -/
structure BcryptHash where
  password : String
deriving DecidableEq

/-- Model of `bcrypt.hash(password, 10)`. -/
def bcryptHash (password : String) : BcryptHash := { password := password }

/-- Model of `bcrypt.compare(password, hash)`. -/
def bcryptCompare (password : String) (h : BcryptHash) : Bool :=
  password == h.password

/-- JavaScript truthiness of a possibly-absent string. -/
def truthy : Option String → Bool
  | none => false
  | some s => !(s == "")

/-- JavaScript truthiness of a possibly-absent byte string (base64 of `[]`
is the empty, falsy, string). -/
def truthyBytes : Option Bytes → Bool
  | none => false
  | some b => !b.isEmpty

/-- Row of the `users` table. -/
structure User where
  username : String
  publicKey : Bytes
  passwordHash : BcryptHash
  encryptedPrivateKey : Envelope
deriving DecidableEq

/-- JSON response of `POST /login`. -/
structure LoginResponse where
  status : Nat
  ok : Bool
  error : Option String
  publicKey : Option Bytes
  privateKey : Option Bytes
deriving DecidableEq

/-- Model of the `POST /login` route (index.js lines 104-122).  The second
component of the result records whether `decryptPrivateKey` was invoked while
serving the request. -/
def loginHandler (users : List User) (username password : Option String) :
    LoginResponse × Bool :=
  if !truthy username || !truthy password then
    ({ status := 400, ok := false, error := some "Missing username or password",
       publicKey := none, privateKey := none }, false)
  else
    let u := username.getD ""
    let p := password.getD ""
    match users.find? (fun w => w.username == u) with
    | none =>
        ({ status := 400, ok := false, error := some "User not found",
           publicKey := none, privateKey := none }, false)
    | some user =>
        if bcryptCompare p user.passwordHash then
          match decryptPrivateKey user.encryptedPrivateKey p with
          | some sk =>
              ({ status := 200, ok := true, error := none,
                 publicKey := some user.publicKey, privateKey := some sk }, true)
          | none =>
              ({ status := 500, ok := false, error := some "Failed to decrypt private key",
                 publicKey := none, privateKey := none }, true)
        else
          ({ status := 401, ok := false, error := some "Invalid password",
             publicKey := none, privateKey := none }, false)

/-- C5 (confirmed): in `POST /login`, `decryptPrivateKey` is attempted only
after the bcrypt comparison has succeeded: whenever the user does not exist or
the password comparison fails, `decryptPrivateKey` is never invoked. -/
theorem login_unwrap_gated_on_verify (users : List User)
    (username password : Option String)
    (hfail : users.find? (fun w => w.username == username.getD "") = none ∨
      ∃ user, users.find? (fun w => w.username == username.getD "") = some user ∧
        bcryptCompare (password.getD "") user.passwordHash = false) :
    (loginHandler users username password).2 = false := by
  unfold loginHandler
  by_cases hm : (!truthy username || !truthy password) = true
  · simp [hm]
  · simp only [hm, Bool.false_eq_true, if_false]
    rcases hfail with hnone | ⟨user, hfind, hcmp⟩
    · simp [hnone]
    · simp [hfind, hcmp]

/-- Witness for C5: a login attempt with the wrong password against a
one-user store never reaches `decryptPrivateKey`. -/
theorem login_unwrap_gated_on_verify_witness :
    (loginHandler
      [{ username := "alice", publicKey := [8],
         passwordHash := bcryptHash "pw",
         encryptedPrivateKey := encryptPrivateKey [7] "pw" [1] [2] }]
      (some "alice") (some "wrong")).2 = false :=
  login_unwrap_gated_on_verify _ _ _
    (Or.inr ⟨_, rfl, by decide⟩)

/-- JSON body of a `POST /register` request. -/
structure RegisterBody where
  username : Option String
  password : Option String
  publicKey : Option Bytes
  privateKey : Option Bytes
deriving DecidableEq

/-- JSON response of `POST /register`. -/
structure RegisterResponse where
  status : Nat
  ok : Bool
  error : Option String
  publicKey : Option Bytes
deriving DecidableEq

/-- Model of the `POST /register` route (index.js lines 86-101).  The
`crypto.randomBytes(16)` draws inside `encryptPrivateKey` are passed in as
`salt` and `iv`; the result pairs the response with the updated `users`
table. -/
def registerHandler (users : List User) (body : RegisterBody) (salt iv : Bytes) :
    RegisterResponse × List User :=
  if !truthy body.username || !truthy body.password ||
      !truthyBytes body.publicKey || !truthyBytes body.privateKey then
    ({ status := 400, ok := false, error := some "Missing fields", publicKey := none },
     users)
  else
    let u := body.username.getD ""
    if (users.find? (fun w => w.username == u)).isSome then
      ({ status := 400, ok := false, error := some "Username already exists",
         publicKey := none }, users)
    else
      let p := body.password.getD ""
      let pk := body.publicKey.getD []
      let enc := encryptPrivateKey (body.privateKey.getD []) p salt iv
      ({ status := 200, ok := true, error := none, publicKey := some pk },
       users ++ [{ username := u, publicKey := pk, passwordHash := bcryptHash p,
                   encryptedPrivateKey := enc }])

/-- Request body built by variant 0's `signup` (src/unnamed/part_000 lines
59-64): it carries `username`, `password` and `publicKey` but no `privateKey`
field. -/
def signupBody_v0 (username password : String) (publicKey : Bytes) : RegisterBody :=
  { username := some username, password := some password,
    publicKey := some publicKey, privateKey := none }

/-- Request body built by variant 1's `signup` (src/unnamed/part_001 lines
56-61): it additionally carries the plaintext private key. -/
def signupBody_v1 (username password : String) (publicKey privateKey : Bytes) :
    RegisterBody :=
  { username := some username, password := some password,
    publicKey := some publicKey, privateKey := some privateKey }

/-- C9 (confirmed): variant 0's `/register` body lacks the `privateKey` field,
and the backend rejects every such request with status 400 and error
`Missing fields`, leaving the users table unchanged — so every signup issued
through variant 0 against this backend is rejected. -/
theorem register_rejects_variant0 (users : List User) (u p : String)
    (pk salt iv : Bytes) :
    (signupBody_v0 u p pk).privateKey = none ∧
    registerHandler users (signupBody_v0 u p pk) salt iv =
      ({ status := 400, ok := false, error := some "Missing fields",
         publicKey := none }, users) := by
  constructor
  · rfl
  · simp [registerHandler, signupBody_v0, truthyBytes]

/-- C3 counterexample: the plaintext private key does leave the client.  At a
concrete input, variant 1's `signup` puts the plaintext private key into the
`/register` request body, and the backend's successful `/login` response body
contains the plaintext decrypted private key. -/
theorem private_key_transmitted_counterexample :
    (signupBody_v1 "alice" "pw" [8] [7, 9]).privateKey = some [7, 9] ∧
    (loginHandler
      [{ username := "alice", publicKey := [8],
         passwordHash := bcryptHash "pw",
         encryptedPrivateKey := encryptPrivateKey [7, 9] "pw" [1] [2] }]
      (some "alice") (some "pw")).1.privateKey = some [7, 9] := by
  constructor
  · rfl
  · simp [loginHandler, truthy, bcryptCompare, bcryptHash, List.find?,
      decryptPrivateKey_encryptPrivateKey]

/-- C3 (corrected, amended claim): variant 0's signup transmits no private
key, but variant 1's signup sends the plaintext private key in its `/register`
request body, and the backend's successful `/login` response returns the
plaintext decrypted private key to the network. -/
theorem private_key_transmission (u p : String) (pub sk salt iv : Bytes)
    (hu : u ≠ "") (hp : p ≠ "") :
    (signupBody_v0 u p pub).privateKey = none ∧
    (signupBody_v1 u p pub sk).privateKey = some sk ∧
    (loginHandler
      [{ username := u, publicKey := pub, passwordHash := bcryptHash p,
         encryptedPrivateKey := encryptPrivateKey sk p salt iv }]
      (some u) (some p)).1.privateKey = some sk := by
  refine ⟨rfl, rfl, ?_⟩
  simp [loginHandler, truthy, bcryptCompare, bcryptHash, List.find?, hu, hp,
    decryptPrivateKey_encryptPrivateKey]

/-- Witness for C3's amended claim at concrete account data. -/
theorem private_key_transmission_witness :
    (signupBody_v0 "bob" "s3cret" [4]).privateKey = none ∧
    (signupBody_v1 "bob" "s3cret" [4] [5, 6]).privateKey = some [5, 6] ∧
    (loginHandler
      [{ username := "bob", publicKey := [4], passwordHash := bcryptHash "s3cret",
         encryptedPrivateKey := encryptPrivateKey [5, 6] "s3cret" [1] [2] }]
      (some "bob") (some "s3cret")).1.privateKey = some [5, 6] :=
  private_key_transmission "bob" "s3cret" [4] [5, 6] [1] [2]
    (by decide) (by decide)

/-!
KeyCustodian (the `signup` functions of the two frontend variants).

`localStorage` is modelled as a record of the two stored items;
`nacl.box.keyPair()` is a library randomness draw, passed in explicitly as
the `fresh` keypair.
-/

/-- A nacl box keypair (base64 encoding of the stored strings elided). -/
structure KeyPair where
  publicKey : Bytes
  secretKey : Bytes
deriving DecidableEq

/-- The two `localStorage` slots used by both frontend variants. -/
structure Storage where
  privateKey : Option Bytes
  publicKey : Option Bytes
deriving DecidableEq

/-- Custody step of variant 0's `signup` (src/unnamed/part_000 lines 43-57):
if both stored items are present (and truthy) they are reused unchanged,
otherwise a fresh keypair is generated and both halves persisted. -/
def signupCustody_v0 (st : Storage) (fresh : KeyPair) : KeyPair × Storage :=
  if truthyBytes st.privateKey && truthyBytes st.publicKey then
    ({ publicKey := st.publicKey.getD [], secretKey := st.privateKey.getD [] }, st)
  else
    (fresh, { privateKey := some fresh.secretKey, publicKey := some fresh.publicKey })

/-- Custody step of variant 1's `signup` (src/unnamed/part_001 lines 49-54 and
65): a fresh keypair is always generated; `publicKey` is persisted before the
`/register` request and `privateKey` after it succeeds (`registerOk`). -/
def signupCustody_v1 (st : Storage) (fresh : KeyPair) (registerOk : Bool) :
    KeyPair × Storage :=
  let st1 := { st with publicKey := some fresh.publicKey }
  if registerOk then
    (fresh, { st1 with privateKey := some fresh.secretKey })
  else
    (fresh, st1)

/-- C4 counterexample: with a keypair already in custody, variant 1's signup
generates and persists a fresh keypair, silently replacing the stored one
instead of reusing it. -/
theorem custody_regenerated_counterexample :
    (signupCustody_v1 { privateKey := some [9], publicKey := some [8] }
        { publicKey := [1], secretKey := [2] } true).2 ≠
      { privateKey := some [9], publicKey := some [8] } ∧
    (signupCustody_v1 { privateKey := some [9], publicKey := some [8] }
        { publicKey := [1], secretKey := [2] } true).1 ≠
      { publicKey := [8], secretKey := [9] } := by
  decide

/-- C4 (corrected, amended claim): variant 0's signup is idempotent over
custody — with a keypair already stored it returns the stored pair and leaves
storage unchanged — but variant 1's signup always generates a fresh keypair,
returns it, and overwrites the stored one on success. -/
theorem signup_custody (st : Storage) (fresh : KeyPair) (sk pk : Bytes)
    (h1 : st.privateKey = some sk) (h2 : sk ≠ [])
    (h3 : st.publicKey = some pk) (h4 : pk ≠ []) :
    signupCustody_v0 st fresh = ({ publicKey := pk, secretKey := sk }, st) ∧
    signupCustody_v1 st fresh true =
      (fresh, { privateKey := some fresh.secretKey,
                publicKey := some fresh.publicKey }) := by
  constructor
  · simp [signupCustody_v0, truthyBytes, h1, h3, List.isEmpty_iff, h2, h4]
  · cases st
    simp_all [signupCustody_v1]

/-- Witness for C4's amended claim at a concrete storage state. -/
theorem signup_custody_witness :
    signupCustody_v0 { privateKey := some [9], publicKey := some [8] }
        { publicKey := [1], secretKey := [2] } =
      ({ publicKey := [8], secretKey := [9] },
       { privateKey := some [9], publicKey := some [8] }) ∧
    signupCustody_v1 { privateKey := some [9], publicKey := some [8] }
        { publicKey := [1], secretKey := [2] } true =
      ({ publicKey := [1], secretKey := [2] },
       { privateKey := some [2], publicKey := some [1] }) :=
  signup_custody { privateKey := some [9], publicKey := some [8] }
    { publicKey := [1], secretKey := [2] } [9] [8]
    rfl (by decide) rfl (by decide)

/-!
MessageCodec, send path (`sendMessage` in both frontend variants:
src/unnamed/part_000 lines 165-210, src/unnamed/part_001 lines 150-195; the
two bodies are identical).

`nacl.box` is a library primitive and is passed in as the function `box`;
`nacl.randomBytes(nacl.box.nonceLength)` draws are supplied by the stream
`nonces`, the per-recipient loop drawing the next element.  The `Promise.all`
over recipients rejects the whole send when any recipient's `/publicKey`
lookup fails, which `Except` models.
-/

/-- One entry of the `encryptedMessages` array POSTed to `/send`. -/
structure OutboundMsg where
  recipient : String
  encryptedMessage : Bytes
  nonce : Bytes
  senderPublicKey : Bytes
deriving DecidableEq

/-- Per-recipient fan-out loop of `sendMessage`: resolve the recipient's
public key, draw the next fresh nonce, box the plaintext for that recipient. -/
def sendLoop (box : Bytes → Bytes → Bytes → Bytes → Bytes) (msg sk spk : Bytes)
    (directory : String → Option Bytes) (nonces : Nat → Bytes) :
    Nat → List String → Except String (List OutboundMsg)
  | _, [] => Except.ok []
  | i, r :: rs =>
      match directory r with
      | none => Except.error ("Recipient " ++ r ++ " not found")
      | some rpk =>
          match sendLoop box msg sk spk directory nonces (i + 1) rs with
          | Except.error e => Except.error e
          | Except.ok rest =>
              Except.ok ({ recipient := r,
                           encryptedMessage := box msg (nonces i) rpk sk,
                           nonce := nonces i,
                           senderPublicKey := spk } :: rest)

/-- Model of JavaScript `String.prototype.trim`: strip leading and trailing
whitespace. -/
def jsTrim (s : String) : String :=
  String.mk ((s.toList.dropWhile Char.isWhitespace).reverse.dropWhile
    Char.isWhitespace).reverse

/-- Model of `sendMessage`: guard clauses for an empty message and an empty
recipient list, then the per-recipient fan-out. -/
def sendMessage (box : Bytes → Bytes → Bytes → Bytes → Bytes) (message : String)
    (recipients : List String) (st : Storage) (senderPub : Bytes)
    (directory : String → Option Bytes) (nonces : Nat → Bytes) :
    Except String (List OutboundMsg) :=
  if jsTrim message = "" then Except.error "Type a message!"
  else if recipients.isEmpty then Except.error "Select at least one recipient!"
  else sendLoop box (strCodes message) (st.privateKey.getD []) senderPub
    directory nonces 0 recipients

theorem sendLoop_ok (box : Bytes → Bytes → Bytes → Bytes → Bytes)
    (msg sk spk : Bytes) (directory : String → Option Bytes)
    (nonces : Nat → Bytes) :
    ∀ (recips : List String) (i : Nat), (∀ r ∈ recips, (directory r).isSome) →
      ∃ l, sendLoop box msg sk spk directory nonces i recips = Except.ok l ∧
        l.length = recips.length ∧
        ∀ j (hj : j < recips.length), ∃ hl : j < l.length,
          l.get ⟨j, hl⟩ =
            { recipient := recips.get ⟨j, hj⟩,
              encryptedMessage :=
                box msg (nonces (i + j)) ((directory (recips.get ⟨j, hj⟩)).getD []) sk,
              nonce := nonces (i + j),
              senderPublicKey := spk } := by
  intro recips
  induction recips with
  | nil =>
      intro i _
      exact ⟨[], rfl, rfl, fun j hj => absurd hj (by simp)⟩
  | cons r rs ih =>
      intro i hdir
      obtain ⟨rpk, hr⟩ := Option.isSome_iff_exists.mp (hdir r (by simp))
      obtain ⟨l', hl', hlen, hspec⟩ :=
        ih (i + 1) (fun r' hr' => hdir r' (by simp [hr']))
      refine ⟨{ recipient := r, encryptedMessage := box msg (nonces i) rpk sk,
                nonce := nonces i, senderPublicKey := spk } :: l', ?_, ?_, ?_⟩
      · simp only [sendLoop, hr, hl']
      · simp [hlen]
      · intro j hj
        match j with
        | 0 =>
            refine ⟨by simp, ?_⟩
            simp [hr]
        | j' + 1 =>
            obtain ⟨hl2, hspec'⟩ := hspec j' (by simpa using hj)
            refine ⟨by simpa using hl2, ?_⟩
            have harith : i + 1 + j' = i + (j' + 1) := by omega
            simpa [harith] using hspec'

/-- C6 (confirmed): for every nonempty message, every recipient list all of
whose members resolve in the directory, and every injective fresh-nonce
stream, `sendMessage` produces exactly one ciphertext record per recipient,
each boxed under its own freshly drawn nonce, and no two records share a
nonce. -/
theorem sendMessage_fanout (box : Bytes → Bytes → Bytes → Bytes → Bytes)
    (message : String) (recipients : List String) (st : Storage)
    (senderPub : Bytes) (directory : String → Option Bytes)
    (nonces : Nat → Bytes)
    (hmsg : jsTrim message ≠ "") (hne : recipients ≠ [])
    (hdir : ∀ r ∈ recipients, (directory r).isSome)
    (hnon : Function.Injective nonces) :
    ∃ l, sendMessage box message recipients st senderPub directory nonces =
        Except.ok l ∧
      l.length = recipients.length ∧
      (∀ j (hj : j < recipients.length), ∃ hl : j < l.length,
        l.get ⟨j, hl⟩ =
          { recipient := recipients.get ⟨j, hj⟩,
            encryptedMessage :=
              box (strCodes message) (nonces j)
                ((directory (recipients.get ⟨j, hj⟩)).getD [])
                (st.privateKey.getD []),
            nonce := nonces j,
            senderPublicKey := senderPub }) ∧
      (∀ j1 j2 (h1 : j1 < l.length) (h2 : j2 < l.length), j1 ≠ j2 →
        (l.get ⟨j1, h1⟩).nonce ≠ (l.get ⟨j2, h2⟩).nonce) := by
  obtain ⟨l, hl, hlen, hspec⟩ :=
    sendLoop_ok box (strCodes message) (st.privateKey.getD []) senderPub
      directory nonces recipients 0 hdir
  have hspec0 : ∀ j (hj : j < recipients.length), ∃ hl2 : j < l.length,
      l.get ⟨j, hl2⟩ =
        { recipient := recipients.get ⟨j, hj⟩,
          encryptedMessage :=
            box (strCodes message) (nonces j)
              ((directory (recipients.get ⟨j, hj⟩)).getD [])
              (st.privateKey.getD []),
          nonce := nonces j,
          senderPublicKey := senderPub } := by
    intro j hj
    obtain ⟨hl2, h⟩ := hspec j hj
    exact ⟨hl2, by simpa using h⟩
  refine ⟨l, ?_, hlen, hspec0, ?_⟩
  · rw [sendMessage, if_neg hmsg, if_neg (by simpa [List.isEmpty_iff] using hne)]
    exact hl
  · intro j1 j2 h1 h2 hne12
    obtain ⟨hl1, hs1⟩ := hspec0 j1 (hlen ▸ h1)
    obtain ⟨hl2, hs2⟩ := hspec0 j2 (hlen ▸ h2)
    rw [hs1, hs2]
    intro hcontra
    exact hne12 (hnon hcontra)

/-- Witness for C6: sending a message to two resolvable recipients with a
concrete injective nonce stream. -/
theorem sendMessage_fanout_witness :
    ∃ l, sendMessage (fun m n _ _ => m ++ n) "hi" ["bob", "carol"]
        { privateKey := some [9], publicKey := some [8] } [8]
        (fun r => if r = "bob" then some [5] else if r = "carol" then some [6] else none)
        (fun i => [i]) = Except.ok l ∧
      l.length = (["bob", "carol"] : List String).length ∧
      (∀ j (hj : j < (["bob", "carol"] : List String).length), ∃ hl : j < l.length,
        l.get ⟨j, hl⟩ =
          { recipient := (["bob", "carol"] : List String).get ⟨j, hj⟩,
            encryptedMessage :=
              (fun (m n _ _ : Bytes) => m ++ n) (strCodes "hi") [j]
                (((fun r => if r = "bob" then some [5] else
                    if r = "carol" then some [6] else none)
                  ((["bob", "carol"] : List String).get ⟨j, hj⟩)).getD [])
                [9],
            nonce := [j],
            senderPublicKey := [8] }) ∧
      (∀ j1 j2 (h1 : j1 < l.length) (h2 : j2 < l.length), j1 ≠ j2 →
        (l.get ⟨j1, h1⟩).nonce ≠ (l.get ⟨j2, h2⟩).nonce) :=
  sendMessage_fanout (fun m n _ _ => m ++ n) "hi" ["bob", "carol"]
    { privateKey := some [9], publicKey := some [8] } [8]
    (fun r => if r = "bob" then some [5] else if r = "carol" then some [6] else none)
    (fun i => [i]) (by decide) (by decide) (by decide)
    (fun a b h => by simpa using h)

/-!
Message retrieval and display: the backend `GET /messages` route
(gmpc-backend/index.js lines 158-164) and the frontend `fetchMessages`
(src/unnamed/part_000 lines 133-159, src/unnamed/part_001 lines 118-144; the
two bodies are identical).

SQLite's `ORDER BY ts DESC` is modelled by an insertion sort descending on
`ts`; `nacl.box.open` is a library primitive passed in as `boxOpen`
(returning `none` both for a `null` result and for a thrown decode error,
which the per-message `try/catch` swallows).
-/

/-- Row of the `messages` table. -/
structure MessageRow where
  id : String
  sender : String
  recipient : String
  encryptedMessage : Bytes
  nonce : Bytes
  senderPublicKey : Bytes
  ts : Nat
deriving DecidableEq

/-- Insert a row into a list kept descending on `ts`. -/
def insertTsDesc (row : MessageRow) : List MessageRow → List MessageRow
  | [] => [row]
  | r :: rs => if r.ts ≤ row.ts then row :: r :: rs else r :: insertTsDesc row rs

/-- Sort rows descending on `ts`: the model of `ORDER BY ts DESC`. -/
def sortTsDesc : List MessageRow → List MessageRow
  | [] => []
  | r :: rs => insertTsDesc r (sortTsDesc rs)

/-- Model of the `GET /messages` route: select the recipient's rows, sort
them descending on `ts`, then `rows.reverse()` before responding. -/
def messagesHandler (table : List MessageRow) (username : Option String) :
    Except String (List MessageRow) :=
  if !truthy username then Except.error "Missing username"
  else
    Except.ok
      ((sortTsDesc (table.filter (fun m => m.recipient == username.getD ""))).reverse)

/-- A fetched message decorated with its decrypted (or placeholder) text. -/
structure RenderedMsg where
  row : MessageRow
  text : String
deriving DecidableEq

/-- Model of `naclUtil.encodeUTF8`. -/
def encodeUTF8 (bs : Bytes) : String := String.mk (bs.map Char.ofNat)

/-- Per-message body of the `data.map` in `fetchMessages`: decrypt one record
with the local private key, falling back to the placeholder text. -/
def renderOne (boxOpen : Bytes → Bytes → Bytes → Bytes → Option Bytes)
    (privKey : Bytes) (m : MessageRow) : RenderedMsg :=
  { row := m,
    text :=
      match boxOpen m.encryptedMessage m.nonce m.senderPublicKey privKey with
      | some bs => encodeUTF8 bs
      | none => "[Unable to decrypt]" }

/-- Model of the frontend `fetchMessages` body applied to the response rows:
bail out if no private key is stored, otherwise decrypt each record
independently and reverse the list before rendering. -/
def fetchMessages (boxOpen : Bytes → Bytes → Bytes → Bytes → Option Bytes)
    (data : List MessageRow) (st : Storage) : Option (List RenderedMsg) :=
  if truthyBytes st.privateKey then
    some ((data.map (renderOne boxOpen (st.privateKey.getD []))).reverse)
  else none

/-- The full fetch-and-render pipeline: backend `GET /messages` response fed
into the frontend `fetchMessages`. -/
def renderedFeed (boxOpen : Bytes → Bytes → Bytes → Bytes → Option Bytes)
    (table : List MessageRow) (user : String) (st : Storage) :
    Option (List RenderedMsg) :=
  match messagesHandler table (some user) with
  | Except.ok rows => fetchMessages boxOpen rows st
  | Except.error _ => none

/-- C7 (code bug): the rendered feed is in descending, not ascending,
timestamp order.  The backend responds oldest-first (`ORDER BY ts DESC` then
`rows.reverse()`), but the frontend reverses again (`decrypted.reverse()`), so
two messages with timestamps 1 and 2 are presented as `[2, 1]`, newest
first — not the ascending `[1, 2]` order the specification states. -/
theorem messages_rendered_newest_first :
    ((renderedFeed (fun _ _ _ _ => none)
        [{ id := "id1", sender := "alice", recipient := "bob",
           encryptedMessage := [1], nonce := [2], senderPublicKey := [3], ts := 1 },
         { id := "id2", sender := "alice", recipient := "bob",
           encryptedMessage := [4], nonce := [5], senderPublicKey := [6], ts := 2 }]
        "bob" { privateKey := some [9], publicKey := some [8] }).getD []).map
      (fun m => m.row.ts) = [2, 1] ∧
    ([2, 1] : List Nat) ≠ [1, 2] := by
  decide

/-- C8 (confirmed): each fetched record is decrypted independently: the
render succeeds on the whole list, preserves its length, renders every
undecryptable record as the placeholder `[Unable to decrypt]` and every
decryptable record as its decrypted text, and every rendered entry is a
function of its own record alone. -/
theorem fetch_per_message_isolation
    (boxOpen : Bytes → Bytes → Bytes → Bytes → Option Bytes)
    (data : List MessageRow) (st : Storage) (sk : Bytes)
    (hsk : st.privateKey = some sk) (hne : sk ≠ []) :
    ∃ l, fetchMessages boxOpen data st = some l ∧
      l.length = data.length ∧
      (∀ m ∈ data,
        (boxOpen m.encryptedMessage m.nonce m.senderPublicKey sk = none →
          ({ row := m, text := "[Unable to decrypt]" } : RenderedMsg) ∈ l) ∧
        (∀ bs, boxOpen m.encryptedMessage m.nonce m.senderPublicKey sk = some bs →
          ({ row := m, text := encodeUTF8 bs } : RenderedMsg) ∈ l)) ∧
      (∀ o ∈ l, o.row ∈ data ∧ o = renderOne boxOpen sk o.row) := by
  refine ⟨(data.map (renderOne boxOpen sk)).reverse, ?_, by simp, ?_, ?_⟩
  · have ht : truthyBytes st.privateKey = true := by
      rw [hsk, truthyBytes]
      simpa [List.isEmpty_iff] using hne
    rw [fetchMessages, if_pos ht, hsk]
    rfl
  · intro m hm
    constructor
    · intro hfail
      rw [List.mem_reverse]
      have : renderOne boxOpen sk m = { row := m, text := "[Unable to decrypt]" } := by
        simp [renderOne, hfail]
      exact this ▸ List.mem_map_of_mem _ hm
    · intro bs hok
      rw [List.mem_reverse]
      have : renderOne boxOpen sk m = { row := m, text := encodeUTF8 bs } := by
        simp [renderOne, hok]
      exact this ▸ List.mem_map_of_mem _ hm
  · intro o ho
    rw [List.mem_reverse, List.mem_map] at ho
    obtain ⟨m, hm, rfl⟩ := ho
    exact ⟨hm, rfl⟩

/-- Sample rows used by concrete witnesses. -/
def sampleRows : List MessageRow :=
  [{ id := "id1", sender := "alice", recipient := "bob",
     encryptedMessage := [1], nonce := [2], senderPublicKey := [3], ts := 1 },
   { id := "id2", sender := "alice", recipient := "bob",
     encryptedMessage := [4], nonce := [5], senderPublicKey := [6], ts := 2 }]

/-- Sample `nacl.box.open` behaviour: only the ciphertext `[1]` decrypts. -/
def sampleOpen (em : Bytes) (_nonce _spk _sk : Bytes) : Option Bytes :=
  if em = [1] then some [104, 105] else none

/-- Witness for C8: one decryptable and one undecryptable record in the same
fetch. -/
theorem fetch_per_message_isolation_witness :
    ∃ l, fetchMessages sampleOpen sampleRows
        { privateKey := some [9], publicKey := some [8] } = some l ∧
      l.length = sampleRows.length ∧
      (∀ m ∈ sampleRows,
        (sampleOpen m.encryptedMessage m.nonce m.senderPublicKey [9] = none →
          ({ row := m, text := "[Unable to decrypt]" } : RenderedMsg) ∈ l) ∧
        (∀ bs, sampleOpen m.encryptedMessage m.nonce m.senderPublicKey [9] = some bs →
          ({ row := m, text := encodeUTF8 bs } : RenderedMsg) ∈ l)) ∧
      (∀ o ∈ l, o.row ∈ sampleRows ∧ o = renderOne sampleOpen [9] o.row) :=
  fetch_per_message_isolation sampleOpen sampleRows
    { privateKey := some [9], publicKey := some [8] } [9] rfl (by decide)

/-!
The `POST /send` route (gmpc-backend/index.js lines 136-155).  `uuidv4()`
draws are supplied by the stream `ids` and the per-row `Date.now()` values by
`nows`, each indexed by how many rows have been inserted so far (both are
only drawn for rows actually inserted).
-/

/-- One entry of the request's `encryptedMessages` array; every field may be
absent or falsy. -/
structure SendEntry where
  recipient : Option String
  encryptedMessage : Option Bytes
  nonce : Option Bytes
  senderPublicKey : Option Bytes
deriving DecidableEq

/-- The guard `if (!recipient || !encryptedMessage || !nonce ||
!senderPublicKey) return;` inverted: a well-formed entry has all four fields
truthy. -/
def entryWellFormed (e : SendEntry) : Bool :=
  truthy e.recipient && truthyBytes e.encryptedMessage &&
    truthyBytes e.nonce && truthyBytes e.senderPublicKey

/-- The `encryptedMessages.forEach` insertion loop: malformed entries are
skipped, well-formed ones become rows of the `messages` table. -/
def insertLoop (sender : String) (ids : Nat → String) (nows : Nat → Nat) :
    Nat → List SendEntry → List MessageRow
  | _, [] => []
  | i, e :: es =>
      if entryWellFormed e then
        { id := ids i, sender := sender, recipient := e.recipient.getD "",
          encryptedMessage := e.encryptedMessage.getD [],
          nonce := e.nonce.getD [],
          senderPublicKey := e.senderPublicKey.getD [],
          ts := nows i } :: insertLoop sender ids nows (i + 1) es
      else insertLoop sender ids nows i es

/-- JSON response of `POST /send`. -/
structure SendResponse where
  status : Nat
  ok : Bool
  error : Option String
deriving DecidableEq

/-- Model of the `POST /send` route: reject a falsy sender or a non-array
`encryptedMessages` (`none`), otherwise run the insertion loop inside a
transaction and respond `ok: true`. -/
def sendHandler (table : List MessageRow) (sender : Option String)
    (encryptedMessages : Option (List SendEntry)) (ids : Nat → String)
    (nows : Nat → Nat) : SendResponse × List MessageRow :=
  if !truthy sender || encryptedMessages.isNone then
    ({ status := 400, ok := false, error := some "Missing fields" }, table)
  else
    ({ status := 200, ok := true, error := none },
     table ++ insertLoop (sender.getD "") ids nows 0 (encryptedMessages.getD []))

/-- Wire content of a stored message row: the four fields taken from the
request entry. -/
def rowWire (r : MessageRow) : String × Bytes × Bytes × Bytes :=
  (r.recipient, r.encryptedMessage, r.nonce, r.senderPublicKey)

/-- Wire content of a request entry. -/
def entryWire (e : SendEntry) : String × Bytes × Bytes × Bytes :=
  (e.recipient.getD "", e.encryptedMessage.getD [], e.nonce.getD [],
   e.senderPublicKey.getD [])

theorem insertLoop_wire (sender : String) (ids : Nat → String) (nows : Nat → Nat) :
    ∀ (es : List SendEntry) (i : Nat),
      (insertLoop sender ids nows i es).map rowWire =
        (es.filter entryWellFormed).map entryWire := by
  intro es
  induction es with
  | nil => intro i; rfl
  | cons e es ih =>
      intro i
      by_cases he : entryWellFormed e = true
      · simp [insertLoop, he, List.filter, rowWire, entryWire, ih]
      · simp [insertLoop, he, List.filter, ih]

/-- C10 (confirmed): `POST /send` silently skips every entry missing one of
`recipient`, `encryptedMessage`, `nonce` or `senderPublicKey`: the stored
rows are exactly the well-formed entries (in order, under the request's
sender), and the response is status 200 with `ok: true` no matter how many
entries were skipped. -/
theorem send_skips_malformed (table : List MessageRow) (s : String)
    (es : List SendEntry) (ids : Nat → String) (nows : Nat → Nat)
    (hs : s ≠ "") :
    (sendHandler table (some s) (some es) ids nows).1 =
      { status := 200, ok := true, error := none } ∧
    (sendHandler table (some s) (some es) ids nows).2 =
      table ++ insertLoop s ids nows 0 es ∧
    (insertLoop s ids nows 0 es).map rowWire =
      (es.filter entryWellFormed).map entryWire ∧
    (∀ r ∈ insertLoop s ids nows 0 es, r.sender = s) := by
  have hsend : sendHandler table (some s) (some es) ids nows =
      ({ status := 200, ok := true, error := none },
       table ++ insertLoop s ids nows 0 es) := by
    simp [sendHandler, truthy, hs]
  refine ⟨by rw [hsend], by rw [hsend], insertLoop_wire s ids nows es 0, ?_⟩
  have hmem : ∀ (es' : List SendEntry) (i : Nat),
      ∀ r ∈ insertLoop s ids nows i es', r.sender = s := by
    intro es'
    induction es' with
    | nil => intro i r hr; simp [insertLoop] at hr
    | cons e es' ih =>
        intro i r hr
        by_cases he : entryWellFormed e = true
        · rw [insertLoop, if_pos he] at hr
          rcases List.mem_cons.mp hr with h | h
          · rw [h]
          · exact ih (i + 1) r h
        · rw [insertLoop, if_neg he] at hr
          exact ih i r hr
  exact hmem es 0

/-- Witness for C10: one malformed entry (missing nonce) between two
well-formed ones. -/
theorem send_skips_malformed_witness :
    (sendHandler [] (some "alice")
        (some [{ recipient := some "bob", encryptedMessage := some [1],
                 nonce := some [2], senderPublicKey := some [3] },
               { recipient := some "carol", encryptedMessage := some [4],
                 nonce := none, senderPublicKey := some [5] },
               { recipient := some "dave", encryptedMessage := some [6],
                 nonce := some [7], senderPublicKey := some [8] }])
        (fun i => toString i) (fun i => i)).1 =
      { status := 200, ok := true, error := none } ∧
    (sendHandler [] (some "alice")
        (some [{ recipient := some "bob", encryptedMessage := some [1],
                 nonce := some [2], senderPublicKey := some [3] },
               { recipient := some "carol", encryptedMessage := some [4],
                 nonce := none, senderPublicKey := some [5] },
               { recipient := some "dave", encryptedMessage := some [6],
                 nonce := some [7], senderPublicKey := some [8] }])
        (fun i => toString i) (fun i => i)).2 =
      [] ++ insertLoop "alice" (fun i => toString i) (fun i => i) 0
        [{ recipient := some "bob", encryptedMessage := some [1],
           nonce := some [2], senderPublicKey := some [3] },
         { recipient := some "carol", encryptedMessage := some [4],
           nonce := none, senderPublicKey := some [5] },
         { recipient := some "dave", encryptedMessage := some [6],
           nonce := some [7], senderPublicKey := some [8] }] ∧
    (insertLoop "alice" (fun i => toString i) (fun i => i) 0
        [{ recipient := some "bob", encryptedMessage := some [1],
           nonce := some [2], senderPublicKey := some [3] },
         { recipient := some "carol", encryptedMessage := some [4],
           nonce := none, senderPublicKey := some [5] },
         { recipient := some "dave", encryptedMessage := some [6],
           nonce := some [7], senderPublicKey := some [8] }]).map rowWire =
      ([{ recipient := some "bob", encryptedMessage := some [1],
          nonce := some [2], senderPublicKey := some [3] },
        { recipient := some "carol", encryptedMessage := some [4],
          nonce := none, senderPublicKey := some [5] },
        { recipient := some "dave", encryptedMessage := some [6],
          nonce := some [7], senderPublicKey := some [8] }].filter
        entryWellFormed).map entryWire ∧
    (∀ r ∈ insertLoop "alice" (fun i => toString i) (fun i => i) 0
        [{ recipient := some "bob", encryptedMessage := some [1],
           nonce := some [2], senderPublicKey := some [3] },
         { recipient := some "carol", encryptedMessage := some [4],
           nonce := none, senderPublicKey := some [5] },
         { recipient := some "dave", encryptedMessage := some [6],
           nonce := some [7], senderPublicKey := some [8] }], r.sender = "alice") :=
  send_skips_malformed [] "alice"
    [{ recipient := some "bob", encryptedMessage := some [1],
       nonce := some [2], senderPublicKey := some [3] },
     { recipient := some "carol", encryptedMessage := some [4],
       nonce := none, senderPublicKey := some [5] },
     { recipient := some "dave", encryptedMessage := some [6],
       nonce := some [7], senderPublicKey := some [8] }]
    (fun i => toString i) (fun i => i) (by decide)

end CipherChat
